import Mathlib

/-!
Verification development for the City-tank server (src/server/index.js) and
the client audio codec (src/client/audio.js).  The game handlers are embedded
shallowly: positions and arithmetic follow JavaScript number semantics with
the special values NaN and the infinities made explicit (finite values are
kept exact as rationals), stateful handlers become functions from server
state to server state paired with the list of emitted socket events, and the
transcendental library calls (Math.cos, Math.sin composed with the
degree-to-radian conversion) are abstracted as a function parameter.
-/

/-- A JavaScript number: a finite value (kept exact as a rational), NaN, or
one of the two infinities.  Rounding of finite doubles is not modelled; no
claim depends on it. -/
inductive JsNum where
  | num (q : ℚ)
  | nan
  | posInf
  | negInf
deriving DecidableEq, Repr

/-- A JavaScript value as far as the embedded handlers inspect one: either a
number, or a value of some other type collapsed to its truthiness (the
handlers only apply a typeof-number test, truthiness tests, and arithmetic
to the payload fields). -/
inductive JsVal where
  | num (x : JsNum)
  | other (tru : Bool)
deriving DecidableEq, Repr

namespace JsNum

/-- Truthiness of a number: 0 and NaN are falsy. -/
def truthy : JsNum → Bool
  | num q => q != 0
  | nan => false
  | posInf => true
  | negInf => true

/-- JavaScript addition on numbers (IEEE special-value rules, finite values
exact). -/
def jadd : JsNum → JsNum → JsNum
  | nan, _ => nan
  | _, nan => nan
  | posInf, negInf => nan
  | negInf, posInf => nan
  | posInf, _ => posInf
  | _, posInf => posInf
  | negInf, _ => negInf
  | _, negInf => negInf
  | num a, num b => num (a + b)

/-- JavaScript negation on numbers. -/
def jneg : JsNum → JsNum
  | nan => nan
  | posInf => negInf
  | negInf => posInf
  | num a => num (-a)

/-- JavaScript subtraction on numbers. -/
def jsub (a b : JsNum) : JsNum := jadd a (jneg b)

/-- JavaScript multiplication on numbers (IEEE special-value rules: an
infinity times zero is NaN, otherwise infinities follow the sign rules). -/
def jmul : JsNum → JsNum → JsNum
  | nan, _ => nan
  | _, nan => nan
  | posInf, posInf => posInf
  | posInf, negInf => negInf
  | negInf, posInf => negInf
  | negInf, negInf => posInf
  | posInf, num b => if 0 < b then posInf else if b < 0 then negInf else nan
  | negInf, num b => if 0 < b then negInf else if b < 0 then posInf else nan
  | num a, posInf => if 0 < a then posInf else if a < 0 then negInf else nan
  | num a, negInf => if 0 < a then negInf else if a < 0 then posInf else nan
  | num a, num b => num (a * b)

/-- JavaScript strict less-than on numbers: any comparison with NaN is
false. -/
def jlt : JsNum → JsNum → Bool
  | nan, _ => false
  | _, nan => false
  | num a, num b => decide (a < b)
  | negInf, negInf => false
  | negInf, _ => true
  | _, negInf => false
  | posInf, _ => false
  | num _, posInf => true

/-- Math.min on two numbers: NaN if either argument is NaN. -/
def jmin (a b : JsNum) : JsNum :=
  match a, b with
  | nan, _ => nan
  | _, nan => nan
  | _, _ => if jlt a b then a else b

/-- Math.max on two numbers: NaN if either argument is NaN. -/
def jmax (a b : JsNum) : JsNum :=
  match a, b with
  | nan, _ => nan
  | _, nan => nan
  | _, _ => if jlt a b then b else a

/-- Math.sqrt applied to a sum of squares compared with a positive radius r:
the source computes Math.sqrt d and compares with <.  For a finite
nonnegative d, sqrt d < r holds exactly when d < r squared; Math.sqrt of a
negative number is NaN and Math.sqrt of positive infinity is positive
infinity, so both compare false. -/
def sqrtLt (d : JsNum) (r : ℚ) : Bool :=
  match d with
  | num q => if q < 0 then false else decide (q < r ^ 2)
  | _ => false

/-- Math.sqrt applied to a sum of squares compared with a positive radius r
using <=, as in getNearbyPlayers. -/
def sqrtLe (d : JsNum) (r : ℚ) : Bool :=
  match d with
  | num q => if q < 0 then false else decide (q ≤ r ^ 2)
  | _ => false

end JsNum

namespace JsVal

/-- Truthiness of a JavaScript value. -/
def truthy : JsVal → Bool
  | num n => n.truthy
  | other t => t

/-- The typeof v === 'number' test. -/
def isNum : JsVal → Bool
  | num _ => true
  | other _ => false

/-- The JavaScript expression a || b. -/
def jsOrElse (a b : JsVal) : JsVal := if a.truthy then a else b

end JsVal

/-- Bridge lemma: for a finite nonnegative squared distance q and a positive
radius r, the embedded comparison sqrtLt agrees with the real-number reading
of the source expression Math.sqrt q < r. -/
theorem sqrtLt_correct (q r : ℚ) (hq : 0 ≤ q) (hr : 0 < r) :
    JsNum.sqrtLt (JsNum.num q) r = true ↔ Real.sqrt (q : ℝ) < (r : ℝ) := by
  show (if q < 0 then false else decide (q < r ^ 2)) = true ↔ _
  rw [if_neg (not_lt.mpr hq)]
  rw [decide_eq_true_eq]
  rw [Real.sqrt_lt' (by exact_mod_cast hr)]
  constructor
  · intro h
    exact_mod_cast h
  · intro h
    exact_mod_cast h

/-- Bridge lemma: the non-strict variant used by getNearbyPlayers agrees with
the real-number reading of Math.sqrt q <= r. -/
theorem sqrtLe_correct (q r : ℚ) (hq : 0 ≤ q) (hr : 0 ≤ r) :
    JsNum.sqrtLe (JsNum.num q) r = true ↔ Real.sqrt (q : ℝ) ≤ (r : ℝ) := by
  show (if q < 0 then false else decide (q ≤ r ^ 2)) = true ↔ _
  rw [if_neg (not_lt.mpr hq)]
  rw [decide_eq_true_eq]
  rw [Real.sqrt_le_left (by exact_mod_cast hr)]
  constructor
  · intro h
    exact_mod_cast h
  · intro h
    exact_mod_cast h

open JsNum (jadd jsub jmul jmin jmax sqrtLt sqrtLe)

/-- A server-side player record, as created by the connection handler
(src/server/index.js lines 108-122).  The random spawn draws are passed in
by the caller; color and transport metadata are omitted (no handler reads
them back).  The lastActivity and lastShoot timestamps are absent until
first written, which the source leaves as undefined fields. -/
structure Player where
  id : Nat
  x : JsNum
  y : JsNum
  angle : JsVal
  name : String
  health : Int
  audioEnabled : Bool
  lastAudioPacket : Int
  connectedAt : Int
  lastActivity : Option Int
  lastShoot : Option Int
deriving DecidableEq, Repr

/-- A bullet record, as created by the playerShoot handler (lines 185-193).
The speed field is always the finite constant 300, so it is kept as a
rational. -/
structure Bullet where
  id : Nat
  playerId : Nat
  x : JsNum
  y : JsNum
  angle : JsVal
  speed : ℚ
  createdAt : Int
deriving DecidableEq, Repr

/-- Payload of a playerMove message; each field is an arbitrary JavaScript
value (a missing field is the falsy non-number JsVal.other false,
i.e. undefined). -/
structure MoveData where
  x : JsVal
  y : JsVal
  angle : JsVal
deriving DecidableEq, Repr

/-- Payload of an audioStream message as far as the server inspects it: the
data field (tested only for truthiness), the optional capture timestamp and
sample rate carried through the relay. -/
structure AudioData where
  data : JsVal
  timestamp : Option Int
  sampleRate : Option ℚ
deriving DecidableEq, Repr

/-- Destination of a socket emission: io.emit (all connections),
socket.broadcast.emit (all but the sender), or socket.to(room).emit (one
target connection). -/
inductive Dest where
  | all
  | others (sender : Nat)
  | toOne (target : Nat)
deriving DecidableEq, Repr

/-- Socket events emitted by the embedded handlers. -/
inductive Event where
  | gameStateSnap (players : List Player) (bullets : List Bullet)
  | playerJoined (p : Player)
  | playerMoved (id : Nat) (x y : JsNum) (angle : JsVal)
  | bulletCreated (b : Bullet)
  | bulletDestroyed (bid : Nat)
  | playerDamaged (pid : Nat) (damage : Int)
  | playerLeft (pid : Nat)
  | audioStream (senderId : Nat) (senderName : String) (frame : AudioData)
  | playerAudioState (pid : Nat) (enabled : Bool)
deriving DecidableEq, Repr

/-- One emission: an event together with its destination. -/
structure Emit where
  dest : Dest
  event : Event
deriving DecidableEq, Repr

/-- The authoritative server game state: the players map and the bullets map
(insertion-ordered, as JavaScript Map iteration is) and the bullet id
counter. -/
structure ServerState where
  players : List Player
  bullets : List Bullet
  bulletIdCounter : Nat
deriving DecidableEq, Repr

/-- The empty initial state. -/
def initState : ServerState := { players := [], bullets := [], bulletIdCounter := 0 }

/-- The library of transcendental functions used by the combat tick: cosDeg a
stands for Math.cos(ToNumber(a) * Math.PI / 180) and sinDeg for the sine
variant.  The tick is proved correct for every such library, and concrete
instances fix a library pointwise. -/
structure TrigLib where
  cosDeg : JsVal → JsNum
  sinDeg : JsVal → JsNum

/-- Map lookup gameState.players.get(id). -/
def findPlayer (ps : List Player) (sid : Nat) : Option Player :=
  ps.find? (fun p => p.id == sid)

/-- Map.set for the players map: replaces in place when the key is present
(JavaScript Map.set keeps the original insertion position), otherwise
appends. -/
def setPlayer (ps : List Player) (p : Player) : List Player :=
  if ps.any (fun q => q.id == p.id) then
    ps.map (fun q => if q.id == p.id then p else q)
  else
    ps ++ [p]

/-- Map.set for the bullets map. -/
def setBullet (bs : List Bullet) (b : Bullet) : List Bullet :=
  if bs.any (fun c => c.id == b.id) then
    bs.map (fun c => if c.id == b.id then b else c)
  else
    bs ++ [b]

/-- In-place mutation of the player object fetched from the map: every entry
with the given id is replaced by its image under f. -/
def updatePlayer (ps : List Player) (sid : Nat) (f : Player → Player) : List Player :=
  ps.map (fun p => if p.id == sid then f p else p)

/-- The newPlayer object literal of the connection handler (lines 108-120):
spawn position Math.random() * 760 + 20 and Math.random() * 560 + 20 with
the random draws rx, ry passed in, angle 0, health 100, audio disabled,
lastAudioPacket and connectedAt stamped now, and no lastActivity or
lastShoot field yet. -/
def newPlayer (sid : Nat) (rx ry : ℚ) (name : String) (now : Int) : Player :=
  { id := sid
    x := JsNum.num (rx * 760 + 20)
    y := JsNum.num (ry * 560 + 20)
    angle := JsVal.num (JsNum.num 0)
    name := name
    health := 100
    audioEnabled := false
    lastAudioPacket := now
    connectedAt := now
    lastActivity := none
    lastShoot := none }

/-- Connection handler (lines 100-137): registers the new player, sends the
full state snapshot to the new connection only, and broadcasts playerJoined
to the others. -/
def onConnect (s : ServerState) (sid : Nat) (rx ry : ℚ) (name : String) (now : Int) :
    ServerState × List Emit :=
  let p := newPlayer sid rx ry name now
  let ps := setPlayer s.players p
  ({ s with players := ps },
    [ { dest := Dest.toOne sid, event := Event.gameStateSnap ps s.bullets },
      { dest := Dest.others sid, event := Event.playerJoined p } ])

/-- The playerMove handler (lines 157-173): accepted only when the connection
has a player, the payload is truthy, and both coordinate fields pass the
typeof-number test; NaN and the infinities are numbers and pass.  The
accepted position is clamped with Math.max(20, Math.min(800, x)) and
Math.max(20, Math.min(600, y)), the angle is data.angle || 0, lastActivity is
stamped, and the result is broadcast to the other connections. -/
def onPlayerMove (s : ServerState) (sid : Nat) (d : Option MoveData) (now : Int) :
    ServerState × List Emit :=
  match findPlayer s.players sid, d with
  | some _, some md =>
    match md.x, md.y with
    | JsVal.num nx, JsVal.num ny =>
      let cx := jmax (JsNum.num 20) (jmin (JsNum.num 800) nx)
      let cy := jmax (JsNum.num 20) (jmin (JsNum.num 600) ny)
      let ang := md.angle.jsOrElse (JsVal.num (JsNum.num 0))
      let ps := updatePlayer s.players sid
        (fun p => { p with x := cx, y := cy, angle := ang, lastActivity := some now })
      ({ s with players := ps },
        [ { dest := Dest.others sid, event := Event.playerMoved sid cx cy ang } ])
    | _, _ => (s, [])
  | _, _ => (s, [])

/-- Rate limiting test of the playerShoot handler (line 182): the request is
allowed when the player has no lastShoot yet (the stored value is falsy,
which for a stored timestamp also covers a zero value) or more than 200 ms
have elapsed. -/
def shootAllowed (last : Option Int) (now : Int) : Bool :=
  match last with
  | none => true
  | some t => t == 0 || decide (now - t > 200)

/-- The playerShoot handler (lines 176-205): on acceptance stamps lastShoot,
allocates the bullet with the post-incremented id counter at the shooter's
current position and angle with speed 300, stores it and broadcasts
bulletCreated to all connections.  The 3000 ms auto-remove timer the handler
schedules is modelled by the separate expireBullet transition. -/
def onPlayerShoot (s : ServerState) (sid : Nat) (now : Int) : ServerState × List Emit :=
  match findPlayer s.players sid with
  | some p =>
    if shootAllowed p.lastShoot now then
      let b : Bullet :=
        { id := s.bulletIdCounter, playerId := sid, x := p.x, y := p.y,
          angle := p.angle, speed := 300, createdAt := now }
      ({ players := updatePlayer s.players sid (fun q => { q with lastShoot := some now })
         bullets := setBullet s.bullets b
         bulletIdCounter := s.bulletIdCounter + 1 },
        [ { dest := Dest.all, event := Event.bulletCreated b } ])
    else (s, [])
  | none => (s, [])

/-- The setTimeout callback scheduled by the playerShoot handler (lines
199-202), firing 3000 ms after creation: it deletes the bullet id from the
store (a no-op when already destroyed) and unconditionally broadcasts
bulletDestroyed; the timer is never cleared. -/
def expireBullet (s : ServerState) (bid : Nat) : ServerState × List Emit :=
  ({ s with bullets := s.bullets.filter (fun b => b.id != bid) },
    [ { dest := Dest.all, event := Event.bulletDestroyed bid } ])

/-- The squared-distance part of the getNearbyPlayers body (lines 285-288):
Math.pow(player.x - other.x, 2) + Math.pow(player.y - other.y, 2). -/
def powDist (ax ay bx by' : JsNum) : JsNum :=
  jadd (jmul (jsub ax bx) (jsub ax bx)) (jmul (jsub ay by') (jsub ay by'))

/-- The getNearbyPlayers utility (lines 281-295): every other player whose
distance to the given player is at most the radius, in map order. -/
def getNearbyPlayers (ps : List Player) (p : Player) (radius : ℚ) : List Nat :=
  ps.filterMap (fun o =>
    if o.id != p.id && sqrtLe (powDist p.x p.y o.x o.y) radius then some o.id else none)

/-- The audioStream handler (lines 208-249): requires a player and a truthy
frame with a truthy data field, flips audioEnabled on and stamps
lastAudioPacket, then either relays the frame (tagged with the sender
identity and name) to each nearby player via a room emission, or broadcasts
it to all other connections when no player is within 300 units.  The
process-wide packet counters and the latency estimate touch no game state
and are not modelled. -/
def onAudioStream (s : ServerState) (sid : Nat) (frame : Option AudioData) (now : Int) :
    ServerState × List Emit :=
  match findPlayer s.players sid, frame with
  | some p, some f =>
    if f.data.truthy then
      let p1 := { p with audioEnabled := true, lastAudioPacket := now }
      let ps := updatePlayer s.players sid (fun _ => p1)
      let nearby := getNearbyPlayers ps p1 300
      if nearby.length > 0 then
        ({ s with players := ps },
          nearby.filterMap (fun pid =>
            if pid != sid then
              some { dest := Dest.toOne pid, event := Event.audioStream sid p1.name f }
            else none))
      else
        ({ s with players := ps },
          [ { dest := Dest.others sid, event := Event.audioStream sid p1.name f } ])
    else (s, [])
  | _, _ => (s, [])

/-- The audioStateChanged handler (lines 252-261); the payload is collapsed
to whether it carried a boolean enabled field (the guard requires typeof
state.enabled === 'boolean'). -/
def onAudioToggle (s : ServerState) (sid : Nat) (enabled : Option Bool) :
    ServerState × List Emit :=
  match findPlayer s.players sid, enabled with
  | some _, some e =>
    ({ s with players := updatePlayer s.players sid (fun p => { p with audioEnabled := e }) },
      [ { dest := Dest.others sid, event := Event.playerAudioState sid e } ])
  | _, _ => (s, [])

/-- The disconnect handler (lines 264-272): deletes the player entry (a
no-op when absent) and unconditionally broadcasts playerLeft to the other
connections. -/
def onDisconnect (s : ServerState) (sid : Nat) : ServerState × List Emit :=
  ({ s with players := s.players.filter (fun p => p.id != sid) },
    [ { dest := Dest.others sid, event := Event.playerLeft sid } ])

/-- Movement of one bullet at the start of the combat tick (lines 300-302):
both coordinates advance by the direction component times bullet.speed times
1/60. -/
def moveBullet (lib : TrigLib) (b : Bullet) : Bullet :=
  { b with
    x := jadd b.x (jmul (jmul (lib.cosDeg b.angle) (JsNum.num b.speed)) (JsNum.num (1 / 60)))
    y := jadd b.y (jmul (jmul (lib.sinDeg b.angle) (JsNum.num b.speed)) (JsNum.num (1 / 60))) }

/-- The bounds test of the combat tick (line 303): bullet.x < 0 ||
bullet.x > 800 || bullet.y < 0 || bullet.y > 600.  All four comparisons are
false when a coordinate is NaN. -/
def outsideArena (b : Bullet) : Bool :=
  JsNum.jlt b.x (JsNum.num 0) || JsNum.jlt (JsNum.num 800) b.x ||
  JsNum.jlt b.y (JsNum.num 0) || JsNum.jlt (JsNum.num 600) b.y

/-- The per-player collision test of the combat tick (lines 308-312):
distance below 20 and the player is not the owner of the bullet. -/
def hitTest (b : Bullet) (p : Player) : Bool :=
  sqrtLt (powDist b.x b.y p.x p.y) 20 && p.id != b.playerId

/-- The inner forEach over players of the combat tick (lines 307-318) for one
moved bullet: every player within the hit radius who is not the owner
triggers a playerDamaged broadcast of 10 followed by a bulletDestroyed
broadcast, and marks the bullet deleted; the iteration does not stop after a
hit. -/
def collideList (b : Bullet) : List Player → Bool × List Emit
  | [] => (false, [])
  | p :: ps =>
    let rest := collideList b ps
    if hitTest b p then
      (true,
        { dest := Dest.all, event := Event.playerDamaged p.id 10 } ::
        { dest := Dest.all, event := Event.bulletDestroyed b.id } :: rest.2)
    else rest

/-- The outer forEach over bullets of the combat tick (lines 298-321): each
bullet is moved, destroyed with a broadcast when out of bounds, and otherwise
run through the collision loop; a bullet marked deleted by the collision loop
is removed from the store.  Deleting the entry under iteration is safe in a
JavaScript Map and does not disturb the remaining entries. -/
def tickBullets (lib : TrigLib) (players : List Player) : List Bullet → List Bullet × List Emit
  | [] => ([], [])
  | b :: bs =>
    let b1 := moveBullet lib b
    let rest := tickBullets lib players bs
    if outsideArena b1 then
      (rest.1, { dest := Dest.all, event := Event.bulletDestroyed b1.id } :: rest.2)
    else
      let c := collideList b1 players
      (if c.1 then rest.1 else b1 :: rest.1, c.2 ++ rest.2)

/-- The 60 Hz combat tick as a state transition. -/
def combatTick (lib : TrigLib) (s : ServerState) : ServerState × List Emit :=
  let r := tickBullets lib s.players s.bullets
  ({ s with bullets := r.1 }, r.2)

/-- The inactivity test of the liveness sweep (line 334): the guard
player.lastActivity && now - player.lastActivity > 600000; a missing
timestamp is falsy, and so is a stored zero. -/
def activityTimedOut (now : Int) (la : Option Int) : Bool :=
  match la with
  | none => false
  | some t => t != 0 && decide (now - t > 600000)

/-- The audio-timeout part of the liveness sweep body (lines 328-331): flips
audioEnabled off after 5000 ms without an audio packet. -/
def audioSweep (now : Int) (p : Player) : Player :=
  if p.audioEnabled && decide (now - p.lastAudioPacket > 5000) then
    { p with audioEnabled := false }
  else p

/-- The body of the liveness sweep (lines 324-340) over the players map: per
player, first the audio timeout, then the inactivity timeout, which deletes
the player and broadcasts playerLeft via io.emit (to all connections). -/
def sweepList (now : Int) : List Player → List Player × List Emit
  | [] => ([], [])
  | p :: ps =>
    let p1 := audioSweep now p
    let rest := sweepList now ps
    if activityTimedOut now p1.lastActivity then
      (rest.1, { dest := Dest.all, event := Event.playerLeft p1.id } :: rest.2)
    else
      (p1 :: rest.1, rest.2)

/-- The 0.5 Hz liveness sweep as a state transition. -/
def livenessSweep (s : ServerState) (now : Int) : ServerState × List Emit :=
  let r := sweepList now s.players
  ({ s with players := r.1 }, r.2)

/-- One schedulable unit of server work: a connection message, a disconnect,
a timer callback, or a periodic tick.  The single-threaded event loop runs
these atomically in some order. -/
inductive Op where
  | connect (sid : Nat) (rx ry : ℚ) (name : String) (now : Int)
  | move (sid : Nat) (d : Option MoveData) (now : Int)
  | shoot (sid : Nat) (now : Int)
  | audioFrame (sid : Nat) (frame : Option AudioData) (now : Int)
  | audioToggle (sid : Nat) (enabled : Option Bool)
  | disconnect (sid : Nat)
  | tick (lib : TrigLib)
  | sweep (now : Int)
  | expire (bid : Nat)

/-- Dispatch of one unit of work. -/
def step (s : ServerState) : Op → ServerState × List Emit
  | Op.connect sid rx ry name now => onConnect s sid rx ry name now
  | Op.move sid d now => onPlayerMove s sid d now
  | Op.shoot sid now => onPlayerShoot s sid now
  | Op.audioFrame sid frame now => onAudioStream s sid frame now
  | Op.audioToggle sid enabled => onAudioToggle s sid enabled
  | Op.disconnect sid => onDisconnect s sid
  | Op.tick lib => combatTick lib s
  | Op.sweep now => livenessSweep s now
  | Op.expire bid => expireBullet s bid

/-- Run of a list of scheduled units, collecting all emissions in order. -/
def runTrace (s : ServerState) : List Op → ServerState × List Emit
  | [] => (s, [])
  | op :: ops =>
    let r := step s op
    let rest := runTrace r.1 ops
    (rest.1, r.2 ++ rest.2)

/-- The state reached by a run. -/
def runState (s : ServerState) (ops : List Op) : ServerState := (runTrace s ops).1

/-- The events emitted by a run. -/
def runEvents (s : ServerState) (ops : List Op) : List Emit := (runTrace s ops).2

/-- Test whether an emission is a playerDamaged broadcast. -/
def isDamagedEmit (em : Emit) : Bool :=
  match em.event with
  | Event.playerDamaged _ _ => true
  | _ => false

/-- Test whether an emission is a bulletDestroyed broadcast for a given
bullet id. -/
def isDestroyedFor (bid : Nat) (em : Emit) : Bool :=
  match em.event with
  | Event.bulletDestroyed b => b == bid
  | _ => false

/-- Test whether an emission is a bulletCreated broadcast. -/
def isCreatedEmit (em : Emit) : Bool :=
  match em.event with
  | Event.bulletCreated _ => true
  | _ => false

/-- Test whether an emission is a playerLeft notification for a given
player id. -/
def isLeftFor (pid : Nat) (em : Emit) : Bool :=
  match em.event with
  | Event.playerLeft p => p == pid
  | _ => false

/-- Helper: the collision loop visits every player; it marks the bullet
destroyed exactly when some in-range non-owner exists, and emits the
playerDamaged and bulletDestroyed pair once per in-range non-owner, in
iteration order. -/
theorem collideList_spec (b : Bullet) (ps : List Player) :
    (collideList b ps).1 = ps.any (hitTest b) ∧
    (collideList b ps).2 =
      (ps.filter (hitTest b)).foldr
        (fun p acc =>
          { dest := Dest.all, event := Event.playerDamaged p.id 10 } ::
          { dest := Dest.all, event := Event.bulletDestroyed b.id } :: acc) [] := by
  induction ps with
  | nil => exact ⟨rfl, rfl⟩
  | cons p ps ih =>
    simp only [collideList, List.any_cons, List.filter_cons]
    cases h : hitTest b p with
    | true => simp [h, ih.1, ih.2]
    | false => simp [h, ih.1, ih.2]

/-- C1, amended: in a combat tick, a live bullet still inside arena bounds
that is within the 20-unit hit radius of k >= 1 live non-owner players
damages every one of them: the tick emits one playerDamaged broadcast of
magnitude 10 and one bulletDestroyed broadcast per in-range non-owner, in
player-iteration order, and removes the bullet from the store; the loop does
not stop after the first hit, so several players in range yield several
damage and destruction broadcasts in the same tick. -/
theorem spec_c1_theorem (lib : TrigLib) (players : List Player) (b : Bullet)
    (h : outsideArena (moveBullet lib b) = false) :
    (tickBullets lib players [b]).2 =
      (players.filter (hitTest (moveBullet lib b))).foldr
        (fun p acc =>
          { dest := Dest.all, event := Event.playerDamaged p.id 10 } ::
          { dest := Dest.all, event := Event.bulletDestroyed b.id } :: acc) [] ∧
    (tickBullets lib players [b]).1 =
      (if players.any (hitTest (moveBullet lib b)) then [] else [moveBullet lib b]) := by
  have hid : (moveBullet lib b).id = b.id := rfl
  have hc := collideList_spec (moveBullet lib b) players
  constructor
  · simp only [tickBullets, h, Bool.false_eq_true, if_false, List.append_nil, hc.2, hid]
  · simp only [tickBullets, h, Bool.false_eq_true, if_false, hc.1]

/-- Trig library instance used by the concrete scenarios: every bullet in
them has angle 0, where Math.cos(0 * Math.PI / 180) = 1 and the sine is 0. -/
def lib0 : TrigLib :=
  { cosDeg := fun _ => JsNum.num 1, sinDeg := fun _ => JsNum.num 0 }

/-- Concrete owner of the scenario bullet, far away from it. -/
def pOwner : Player :=
  { id := 1, x := JsNum.num 500, y := JsNum.num 500, angle := JsVal.num (JsNum.num 0),
    name := "A", health := 100, audioEnabled := false, lastAudioPacket := 0,
    connectedAt := 0, lastActivity := none, lastShoot := none }

/-- Concrete first victim, located where the scenario bullet lands. -/
def pVictimA : Player :=
  { id := 2, x := JsNum.num 25, y := JsNum.num 20, angle := JsVal.num (JsNum.num 0),
    name := "B", health := 100, audioEnabled := false, lastAudioPacket := 0,
    connectedAt := 0, lastActivity := none, lastShoot := none }

/-- Concrete second victim, also where the scenario bullet lands. -/
def pVictimB : Player :=
  { id := 3, x := JsNum.num 25, y := JsNum.num 20, angle := JsVal.num (JsNum.num 0),
    name := "C", health := 100, audioEnabled := false, lastAudioPacket := 0,
    connectedAt := 0, lastActivity := none, lastShoot := none }

/-- Concrete bullet owned by player 1, at (20, 20) with angle 0; one tick
moves it to (25, 20), inside the arena and within 20 units of both victims. -/
def cBullet : Bullet :=
  { id := 0, playerId := 1, x := JsNum.num 20, y := JsNum.num 20,
    angle := JsVal.num (JsNum.num 0), speed := 300, createdAt := 0 }

/-- C1, counterexample to the claim as stated: with two non-owner players
simultaneously in range of one in-bounds bullet, the combat tick emits two
playerDamaged broadcasts and two bulletDestroyed broadcasts for that bullet,
not exactly one of each, because the collision loop does not stop after the
first hit. -/
theorem spec_c1_counterexample :
    ((tickBullets lib0 [pOwner, pVictimA, pVictimB] [cBullet]).2.filter isDamagedEmit).length
      = 2 ∧
    ((tickBullets lib0 [pOwner, pVictimA, pVictimB] [cBullet]).2.filter
        (isDestroyedFor 0)).length = 2 := by
  norm_num [tickBullets, collideList, moveBullet, outsideArena, hitTest, powDist,
    lib0, pOwner, pVictimA, pVictimB, cBullet, JsNum.jadd, JsNum.jsub, JsNum.jmul,
    JsNum.jneg, JsNum.jlt, JsNum.sqrtLt, isDamagedEmit, isDestroyedFor]

/-- C1, witness: the amended theorem applied to the concrete two-victim
scenario, with the in-bounds hypothesis discharged by evaluation. -/
theorem spec_c1_witness :
    outsideArena (moveBullet lib0 cBullet) = false ∧
    (tickBullets lib0 [pOwner, pVictimA, pVictimB] [cBullet]).2 =
      ([pOwner, pVictimA, pVictimB].filter (hitTest (moveBullet lib0 cBullet))).foldr
        (fun p acc =>
          { dest := Dest.all, event := Event.playerDamaged p.id 10 } ::
          { dest := Dest.all, event := Event.bulletDestroyed cBullet.id } :: acc) [] := by
  have h : outsideArena (moveBullet lib0 cBullet) = false := by
    norm_num [outsideArena, moveBullet, lib0, cBullet, JsNum.jadd, JsNum.jmul, JsNum.jlt]
  exact ⟨h, (spec_c1_theorem lib0 [pOwner, pVictimA, pVictimB] cBullet h).1⟩

/-- Concrete schedule for the duplicate-destruction scenario: two players
connect at the same spawn point, player 1 shoots, the next combat tick lands
the bullet on player 2 and destroys it, and 3000 ms after creation the
never-cancelled expiry timer fires for the same bullet id. -/
def c2ops : List Op :=
  [ Op.connect 1 0 0 "A" 0, Op.connect 2 0 0 "B" 0, Op.shoot 1 1000,
    Op.tick lib0, Op.expire 0 ]

/-- C2, counterexample to the claim as stated: a bullet destroyed early by
collision receives a second bulletDestroyed broadcast from its expiry timer,
so the destruction broadcast for its identity is emitted twice over its
lifetime, not exactly once. -/
theorem spec_c2_counterexample :
    ((runEvents initState c2ops).filter (isDestroyedFor 0)).length = 2 := by
  norm_num [runEvents, runTrace, step, c2ops, initState, onConnect, newPlayer,
    setPlayer, onPlayerShoot, findPlayer, shootAllowed, setBullet, updatePlayer,
    combatTick, tickBullets, moveBullet, outsideArena, collideList, hitTest,
    powDist, expireBullet, lib0, List.find?, JsNum.jadd, JsNum.jsub, JsNum.jmul,
    JsNum.jneg, JsNum.jlt, JsNum.sqrtLt, isDestroyedFor]

/-- C2, amended: the expiry timer scheduled at creation is never cancelled;
it always fires 3000 ms after creation and unconditionally broadcasts
bulletDestroyed for its bullet id.  For a bullet already destroyed earlier by
bounds or collision the store deletion is a safe no-op (the state is left
unchanged), but the destruction broadcast is duplicated rather than
suppressed. -/
theorem spec_c2_theorem (s : ServerState) (bid : Nat)
    (h : s.bullets.all (fun b => b.id != bid) = true) :
    (expireBullet s bid).1 = s ∧
    (expireBullet s bid).2 = [{ dest := Dest.all, event := Event.bulletDestroyed bid }] := by
  refine ⟨?_, rfl⟩
  have hf : s.bullets.filter (fun b => b.id != bid) = s.bullets :=
    List.filter_eq_self.mpr (fun b hb => List.all_eq_true.mp h b hb)
  show { s with bullets := s.bullets.filter (fun b => b.id != bid) } = s
  rw [hf]

/-- C2, witness: the amended theorem applied to a concrete state holding an
unrelated bullet, with the absence hypothesis discharged by evaluation. -/
theorem spec_c2_witness :
    (ServerState.mk [pOwner] [cBullet] 1).bullets.all (fun b => b.id != 7) = true ∧
    (expireBullet (ServerState.mk [pOwner] [cBullet] 1) 7).1 =
      ServerState.mk [pOwner] [cBullet] 1 ∧
    (expireBullet (ServerState.mk [pOwner] [cBullet] 1) 7).2 =
      [{ dest := Dest.all, event := Event.bulletDestroyed 7 }] := by
  have h : (ServerState.mk [pOwner] [cBullet] 1).bullets.all (fun b => b.id != 7) = true := by
    norm_num [cBullet]
  exact ⟨h, (spec_c2_theorem (ServerState.mk [pOwner] [cBullet] 1) 7 h).1,
    (spec_c2_theorem (ServerState.mk [pOwner] [cBullet] 1) 7 h).2⟩

/-- Helper: Math.min on two finite numbers is the rational minimum. -/
theorem jmin_num (a b : ℚ) : jmin (JsNum.num a) (JsNum.num b) = JsNum.num (min a b) := by
  show (if JsNum.jlt (JsNum.num a) (JsNum.num b) then JsNum.num a else JsNum.num b) = _
  rcases lt_trichotomy a b with h | h | h
  · simp [JsNum.jlt, h, min_eq_left h.le]
  · simp [JsNum.jlt, h]
  · simp [JsNum.jlt, not_lt.mpr h.le, min_eq_right h.le]

/-- Helper: Math.max on two finite numbers is the rational maximum. -/
theorem jmax_num (a b : ℚ) : jmax (JsNum.num a) (JsNum.num b) = JsNum.num (max a b) := by
  show (if JsNum.jlt (JsNum.num a) (JsNum.num b) then JsNum.num b else JsNum.num a) = _
  rcases lt_trichotomy a b with h | h | h
  · simp [JsNum.jlt, h, max_eq_right h.le]
  · simp [JsNum.jlt, h]
  · simp [JsNum.jlt, not_lt.mpr h.le, max_eq_left h.le]

/-- Helper: looking up a player after an in-place mutation of the entry with
the same id yields the mutated record, provided the mutation preserves the
id. -/
theorem findPlayer_update (ps : List Player) (sid : Nat) (f : Player → Player)
    (hid : ∀ q, q.id = sid → (f q).id = q.id) (p : Player)
    (hp : findPlayer ps sid = some p) :
    findPlayer (updatePlayer ps sid f) sid = some (f p) := by
  induction ps with
  | nil => simp [findPlayer] at hp
  | cons q ps ih =>
    cases h : (q.id == sid) with
    | true =>
      have hq : q = p := by simpa [findPlayer, List.find?, h] using hp
      subst hq
      simp [updatePlayer, findPlayer, List.find?, h, hid q (by simpa using h)]
    | false =>
      have hp' : findPlayer ps sid = some p := by
        simpa [findPlayer, List.find?, h] using hp
      simpa [updatePlayer, findPlayer, List.find?, h] using ih hp'

/-- Concrete one-player state used by the movement scenarios. -/
def sOne : ServerState := { players := [pOwner], bullets := [], bulletIdCounter := 0 }

/-- Concrete movement payload with x = 790: finite, well typed, inside the
arena, but beyond arenaWidth - 20 = 780. -/
def c3data : MoveData :=
  { x := JsVal.num (JsNum.num 790), y := JsVal.num (JsNum.num 50),
    angle := JsVal.num (JsNum.num 0) }

/-- C3, counterexample to the claim as stated: the accepted move to x = 790
is stored and broadcast as x = 790, which is outside the claimed inner bound
of arenaWidth - 20 = 780; the upper clamp of the handler is Math.min(800, x),
not Math.min(780, x). -/
theorem spec_c3_counterexample :
    findPlayer (onPlayerMove sOne 1 (some c3data) 5).1.players 1 =
      some { pOwner with
             x := JsNum.num 790
             y := JsNum.num 50
             angle := JsVal.num (JsNum.num 0)
             lastActivity := some 5 } ∧
    (onPlayerMove sOne 1 (some c3data) 5).2 =
      [ { dest := Dest.others 1
          event := Event.playerMoved 1 (JsNum.num 790) (JsNum.num 50)
            (JsVal.num (JsNum.num 0)) } ] ∧
    ¬ ((790 : ℚ) ≤ 780) := by
  refine ⟨?_, ?_, by norm_num⟩ <;>
    norm_num [onPlayerMove, findPlayer, updatePlayer, sOne, c3data, pOwner,
      List.find?, JsNum.jmax, JsNum.jmin, JsNum.jlt, JsVal.jsOrElse, JsVal.truthy,
      JsNum.truthy]

/-- C3, amended: an accepted playerMove whose coordinates are finite numbers
stores and broadcasts the position clamped to [20, 800] x [20, 600]: the
20-unit margin is applied only at the left and top edges, while the right
and bottom clamps are the full arena dimensions 800 and 600. -/
theorem spec_c3_theorem (s : ServerState) (sid : Nat) (md : MoveData) (now : Int)
    (p : Player) (qx qy : ℚ) (hp : findPlayer s.players sid = some p)
    (hx : md.x = JsVal.num (JsNum.num qx)) (hy : md.y = JsVal.num (JsNum.num qy)) :
    findPlayer (onPlayerMove s sid (some md) now).1.players sid =
      some { p with
             x := JsNum.num (max 20 (min 800 qx))
             y := JsNum.num (max 20 (min 600 qy))
             angle := md.angle.jsOrElse (JsVal.num (JsNum.num 0))
             lastActivity := some now } ∧
    (onPlayerMove s sid (some md) now).2 =
      [ { dest := Dest.others sid
          event := Event.playerMoved sid (JsNum.num (max 20 (min 800 qx)))
            (JsNum.num (max 20 (min 600 qy)))
            (md.angle.jsOrElse (JsVal.num (JsNum.num 0))) } ] ∧
    20 ≤ max 20 (min 800 qx) ∧ max 20 (min 800 qx) ≤ 800 ∧
    20 ≤ max 20 (min 600 qy) ∧ max 20 (min 600 qy) ≤ 600 := by
  have hclx : jmax (JsNum.num 20) (jmin (JsNum.num 800) (JsNum.num qx)) =
      JsNum.num (max 20 (min 800 qx)) := by rw [jmin_num, jmax_num]
  have hcly : jmax (JsNum.num 20) (jmin (JsNum.num 600) (JsNum.num qy)) =
      JsNum.num (max 20 (min 600 qy)) := by rw [jmin_num, jmax_num]
  refine ⟨?_, ?_, le_max_left _ _,
    max_le (by norm_num) (min_le_left _ _),
    le_max_left _ _,
    max_le (by norm_num) (min_le_left _ _)⟩
  · simp only [onPlayerMove, hp, hx, hy, hclx, hcly]
    exact findPlayer_update s.players sid (fun q => { q with x := JsNum.num (max 20 (min 800 qx)), y := JsNum.num (max 20 (min 600 qy)), angle := md.angle.jsOrElse (JsVal.num (JsNum.num 0)), lastActivity := some now }) (fun q _ => rfl) p hp
  · simp only [onPlayerMove, hp, hx, hy, hclx, hcly]

/-- C3, witness: the amended theorem applied to the concrete x = 790 move,
with its hypotheses discharged by evaluation. -/
theorem spec_c3_witness :
    findPlayer sOne.players 1 = some pOwner ∧
    c3data.x = JsVal.num (JsNum.num 790) ∧
    c3data.y = JsVal.num (JsNum.num 50) ∧
    (onPlayerMove sOne 1 (some c3data) 5).2 =
      [ { dest := Dest.others 1
          event := Event.playerMoved 1 (JsNum.num (max 20 (min 800 (790 : ℚ))))
            (JsNum.num (max 20 (min 600 (50 : ℚ))))
            (c3data.angle.jsOrElse (JsVal.num (JsNum.num 0))) } ] := by
  have hp : findPlayer sOne.players 1 = some pOwner := by
    simp [findPlayer, sOne, List.find?, pOwner]
  exact ⟨hp, rfl, rfl,
    (spec_c3_theorem sOne 1 c3data 5 pOwner 790 50 hp rfl rfl).2.1⟩

/-- Well-formedness test of a playerMove payload as the source guard applies
it (line 159): the payload is truthy and both x and y pass the typeof-number
test.  NaN and the infinities are numbers in JavaScript, so a non-finite
coordinate still counts as well formed here. -/
def wellFormedMove : Option MoveData → Bool
  | none => false
  | some md => md.x.isNum && md.y.isNum

/-- Concrete movement payload whose x field is NaN: typeof NaN is number, so
the guard accepts it. -/
def c4data : MoveData :=
  { x := JsVal.num JsNum.nan, y := JsVal.num (JsNum.num 50),
    angle := JsVal.num (JsNum.num 0) }

/-- C4, counterexample to the claim as stated: a playerMove carrying NaN in x
is not silently ignored.  The guard only checks typeof, which NaN passes; the
clamp propagates NaN, the stored position becomes NaN, lastActivity is
stamped, and a playerMoved broadcast carrying NaN is emitted. -/
theorem spec_c4_counterexample :
    findPlayer (onPlayerMove sOne 1 (some c4data) 5).1.players 1 =
      some { pOwner with
             x := JsNum.nan
             y := JsNum.num 50
             angle := JsVal.num (JsNum.num 0)
             lastActivity := some 5 } ∧
    (onPlayerMove sOne 1 (some c4data) 5).2 =
      [ { dest := Dest.others 1
          event := Event.playerMoved 1 JsNum.nan (JsNum.num 50)
            (JsVal.num (JsNum.num 0)) } ] ∧
    (onPlayerMove sOne 1 (some c4data) 5).1 ≠ sOne := by
  refine ⟨?_, ?_, ?_⟩ <;>
    norm_num [onPlayerMove, findPlayer, updatePlayer, sOne, c4data, pOwner,
      List.find?, JsNum.jmax, JsNum.jmin, JsNum.jlt, JsVal.jsOrElse, JsVal.truthy,
      JsNum.truthy, ServerState.mk.injEq, Player.mk.injEq]

/-- C4, amended: a playerMove whose payload is falsy or whose x or y fails
the typeof-number test is silently dropped: the state is unchanged, nothing
is broadcast, and no error is surfaced.  Non-finite values such as NaN are
numbers and pass the guard, so they are not covered by this rejection (the
NaN case mutates state and broadcasts, as the counterexample shows). -/
theorem spec_c4_theorem (s : ServerState) (sid : Nat) (d : Option MoveData) (now : Int)
    (h : wellFormedMove d = false) :
    onPlayerMove s sid d now = (s, []) := by
  cases hf : findPlayer s.players sid with
  | none =>
    cases d with
    | none => simp [onPlayerMove, hf]
    | some md => simp [onPlayerMove, hf]
  | some p =>
    cases d with
    | none => simp [onPlayerMove, hf]
    | some md =>
      simp only [wellFormedMove, Bool.and_eq_false_iff] at h
      cases hmx : md.x with
      | num nx =>
        cases hmy : md.y with
        | num ny =>
          exfalso
          rw [hmx, hmy] at h
          simp [JsVal.isNum] at h
        | other t => simp [onPlayerMove, hf, hmx, hmy]
      | other t =>
        cases hmy : md.y with
        | num ny => simp [onPlayerMove, hf, hmx, hmy]
        | other t2 => simp [onPlayerMove, hf, hmx, hmy]

/-- C4, witness: the amended theorem applied to a payload whose x field is
undefined, with the ill-formedness hypothesis discharged by evaluation. -/
theorem spec_c4_witness :
    wellFormedMove
      (some { x := JsVal.other false
              y := JsVal.num (JsNum.num 50)
              angle := JsVal.num (JsNum.num 0) }) = false ∧
    onPlayerMove sOne 1
      (some { x := JsVal.other false
              y := JsVal.num (JsNum.num 50)
              angle := JsVal.num (JsNum.num 0) }) 5 = (sOne, []) := by
  refine ⟨rfl, spec_c4_theorem sOne 1 _ 5 rfl⟩

/-- Helper: one playerShoot request broadcasts at most one bulletCreated. -/
theorem shoot_created_le_one (s : ServerState) (sid : Nat) (t : Int) :
    (((onPlayerShoot s sid t).2).filter isCreatedEmit).length ≤ 1 := by
  cases hf : findPlayer s.players sid with
  | none => simp [onPlayerShoot, hf]
  | some p =>
    cases ha : shootAllowed p.lastShoot t with
    | true => simp [onPlayerShoot, hf, ha, isCreatedEmit]
    | false => simp [onPlayerShoot, hf, ha]

/-- C5: two shoot requests from the same connection with positive timestamps
fewer than 200 ms apart create at most one bullet (at most one bulletCreated
broadcast across both requests); moreover an accepted shot broadcasts exactly
one bullet whose origin is the shooter's current position and angle with
fixed speed 300 and the next bullet id, and stamps the connection's
last-accepted-shot timestamp. -/
theorem spec_c5_theorem (s : ServerState) (sid : Nat) (t1 t2 : Int)
    (h0 : 0 < t1) (h1 : t1 ≤ t2) (h2 : t2 - t1 < 200) :
    (((onPlayerShoot s sid t1).2 ++
        (onPlayerShoot (onPlayerShoot s sid t1).1 sid t2).2).filter
          isCreatedEmit).length ≤ 1 ∧
    (∀ p, findPlayer s.players sid = some p → shootAllowed p.lastShoot t1 = true →
      (onPlayerShoot s sid t1).2 =
        [ { dest := Dest.all
            event := Event.bulletCreated
              { id := s.bulletIdCounter, playerId := sid, x := p.x, y := p.y,
                angle := p.angle, speed := 300, createdAt := t1 } } ] ∧
      findPlayer (onPlayerShoot s sid t1).1.players sid =
        some { p with lastShoot := some t1 }) := by
  have hrej : shootAllowed (some t1) t2 = false := by
    have e1 : (t1 == 0) = false := beq_eq_false_iff_ne.mpr h0.ne'
    have e2 : decide (t2 - t1 > 200) = false := decide_eq_false (lt_asymm h2)
    simp only [shootAllowed, e1, e2, Bool.or_self]
  constructor
  · cases hf : findPlayer s.players sid with
    | none =>
      have hstate : (onPlayerShoot s sid t1).1 = s := by simp [onPlayerShoot, hf]
      have he1 : (onPlayerShoot s sid t1).2 = [] := by simp [onPlayerShoot, hf]
      rw [hstate, he1, List.nil_append]
      exact shoot_created_le_one s sid t2
    | some p =>
      cases ha : shootAllowed p.lastShoot t1 with
      | false =>
        have hstate : (onPlayerShoot s sid t1).1 = s := by simp [onPlayerShoot, hf, ha]
        have he1 : (onPlayerShoot s sid t1).2 = [] := by simp [onPlayerShoot, hf, ha]
        rw [hstate, he1, List.nil_append]
        exact shoot_created_le_one s sid t2
      | true =>
        have hfind2 : findPlayer (onPlayerShoot s sid t1).1.players sid =
            some { p with lastShoot := some t1 } := by
          simp only [onPlayerShoot, hf, ha, if_true]
          exact findPlayer_update s.players sid
            (fun q => { q with lastShoot := some t1 }) (fun q _ => rfl) p hf
        have he2 : (onPlayerShoot (onPlayerShoot s sid t1).1 sid t2).2 = [] := by
          generalize hgen : (onPlayerShoot s sid t1).1 = s1
          rw [hgen] at hfind2
          simp [onPlayerShoot, hfind2, hrej]
        have he1 : ((onPlayerShoot s sid t1).2.filter isCreatedEmit).length = 1 := by
          simp [onPlayerShoot, hf, ha, isCreatedEmit]
        rw [List.filter_append, List.length_append, he2]
        simp [he1]
  · intro p hp ha
    refine ⟨by simp [onPlayerShoot, hp, ha], ?_⟩
    simp only [onPlayerShoot, hp, ha, if_true]
    exact findPlayer_update s.players sid
      (fun q => { q with lastShoot := some t1 }) (fun q _ => rfl) p hp

/-- C5, witness: two concrete shots at 1000 ms and 1100 ms from the player of
the one-player state: at most one bulletCreated is broadcast, and the first
shot creates the bullet at the shooter's position with speed 300. -/
theorem spec_c5_witness :
    (((onPlayerShoot sOne 1 1000).2 ++
        (onPlayerShoot (onPlayerShoot sOne 1 1000).1 1 1100).2).filter
          isCreatedEmit).length ≤ 1 ∧
    (onPlayerShoot sOne 1 1000).2 =
      [ { dest := Dest.all
          event := Event.bulletCreated
            { id := 0, playerId := 1, x := JsNum.num 500, y := JsNum.num 500,
              angle := JsVal.num (JsNum.num 0), speed := 300, createdAt := 1000 } } ] := by
  have hp : findPlayer sOne.players 1 = some pOwner := by
    simp [findPlayer, sOne, List.find?, pOwner]
  have ha : shootAllowed pOwner.lastShoot 1000 = true := rfl
  have h := spec_c5_theorem sOne 1 1000 1100 (by norm_num) (by norm_num) (by norm_num)
  refine ⟨h.1, ?_⟩
  have h2 := (h.2 pOwner hp ha).1
  simpa [sOne, pOwner] using h2

/-- Whether a connection receives an emission with the given destination:
io.emit reaches everyone, a broadcast reaches everyone but the sender, and a
room emission reaches exactly its target. -/
def destIncludes : Dest → Nat → Bool
  | Dest.all, _ => true
  | Dest.others s, r => r != s
  | Dest.toOne t, r => r == t

/-- Helper: getNearbyPlayers never returns the queried player itself. -/
theorem getNearby_ne (ps : List Player) (p : Player) (r : ℚ) :
    ∀ pid ∈ getNearbyPlayers ps p r, pid ≠ p.id := by
  intro pid h
  obtain ⟨o, ho, heq⟩ := List.mem_filterMap.mp h
  by_cases hc : (o.id != p.id && sqrtLe (powDist p.x p.y o.x o.y) r) = true
  · rw [if_pos hc] at heq
    obtain rfl : o.id = pid := Option.some.inj heq
    simp only [Bool.and_eq_true] at hc
    simpa using hc.1
  · rw [if_neg hc] at heq
    exact absurd heq (by simp)

/-- Helper: the redundant sender filter in the audio relay loop is the
identity when the sender is not among the recipients. -/
theorem filterMap_guard_eq_map (l : List Nat) (sid : Nat) (g : Nat → Emit)
    (h : ∀ pid ∈ l, pid ≠ sid) :
    l.filterMap (fun pid => if pid != sid then some (g pid) else none) = l.map g := by
  induction l with
  | nil => rfl
  | cons a l ih =>
    have ha : (a != sid) = true := by simpa using h a (List.mem_cons_self a l)
    simp only [List.filterMap_cons, ha, if_true, List.map_cons]
    rw [ih (fun pid hm => h pid (List.mem_cons_of_mem a hm))]

/-- C6: a well-formed audio frame from a connection with a live player flips
the sender's audioEnabled flag on and stamps lastAudioPacket; when the set
of other live players within 300 units of the sender is non-empty the frame,
tagged with the sender's identity and name, is delivered to exactly that set
via room emissions, and when it is empty the frame is broadcast to all other
connections; in both cases no emission of the handler reaches the sender. -/
theorem spec_c6_theorem (s : ServerState) (sid : Nat) (f : AudioData) (now : Int)
    (p : Player) (hp : findPlayer s.players sid = some p)
    (hf : f.data.truthy = true) :
    findPlayer (onAudioStream s sid (some f) now).1.players sid =
      some { p with audioEnabled := true, lastAudioPacket := now } ∧
    (getNearbyPlayers
        (updatePlayer s.players sid
          (fun _ => { p with audioEnabled := true, lastAudioPacket := now }))
        { p with audioEnabled := true, lastAudioPacket := now } 300 ≠ [] →
      (onAudioStream s sid (some f) now).2 =
        (getNearbyPlayers
            (updatePlayer s.players sid
              (fun _ => { p with audioEnabled := true, lastAudioPacket := now }))
            { p with audioEnabled := true, lastAudioPacket := now } 300).map
          (fun pid =>
            { dest := Dest.toOne pid, event := Event.audioStream sid p.name f })) ∧
    (getNearbyPlayers
        (updatePlayer s.players sid
          (fun _ => { p with audioEnabled := true, lastAudioPacket := now }))
        { p with audioEnabled := true, lastAudioPacket := now } 300 = [] →
      (onAudioStream s sid (some f) now).2 =
        [ { dest := Dest.others sid, event := Event.audioStream sid p.name f } ]) ∧
    (∀ em ∈ (onAudioStream s sid (some f) now).2, destIncludes em.dest sid = false) := by
  have hid : p.id = sid := by simpa using List.find?_some hp
  have hne : ∀ pid ∈ getNearbyPlayers
      (updatePlayer s.players sid
        (fun _ => { p with audioEnabled := true, lastAudioPacket := now }))
      { p with audioEnabled := true, lastAudioPacket := now } 300, pid ≠ sid := by
    intro pid hm
    have := getNearby_ne
      (updatePlayer s.players sid
        (fun _ => { p with audioEnabled := true, lastAudioPacket := now }))
      { p with audioEnabled := true, lastAudioPacket := now } 300 pid hm
    simpa [hid] using this
  have hfind : findPlayer
      (updatePlayer s.players sid
        (fun _ => { p with audioEnabled := true, lastAudioPacket := now })) sid =
      some { p with audioEnabled := true, lastAudioPacket := now } :=
    findPlayer_update s.players sid _ (fun q hq => by simp [hid, hq]) p hp
  by_cases hn : getNearbyPlayers
      (updatePlayer s.players sid
        (fun _ => { p with audioEnabled := true, lastAudioPacket := now }))
      { p with audioEnabled := true, lastAudioPacket := now } 300 = []
  · have hlen : ¬ (0 < (getNearbyPlayers
        (updatePlayer s.players sid
          (fun _ => { p with audioEnabled := true, lastAudioPacket := now }))
        { p with audioEnabled := true, lastAudioPacket := now } 300).length) := by
      rw [hn]
      simp
    refine ⟨?_, fun hcontra => absurd hn hcontra, fun _ => ?_, ?_⟩
    · simp only [onAudioStream, hp, hf, if_true, hlen, if_false]
      exact hfind
    · simp only [onAudioStream, hp, hf, if_true, hlen, if_false]
    · intro em hm
      simp only [onAudioStream, hp, hf, if_true, hlen, if_false] at hm
      simp only [List.mem_singleton] at hm
      subst hm
      simp [destIncludes]
  · have hlen : 0 < (getNearbyPlayers
        (updatePlayer s.players sid
          (fun _ => { p with audioEnabled := true, lastAudioPacket := now }))
        { p with audioEnabled := true, lastAudioPacket := now } 300).length :=
      List.length_pos.mpr hn
    have hmap := filterMap_guard_eq_map _ sid
      (fun pid =>
        { dest := Dest.toOne pid, event := Event.audioStream sid p.name f }) hne
    refine ⟨?_, fun _ => ?_, fun hcontra => absurd hcontra hn, ?_⟩
    · simp only [onAudioStream, hp, hf, if_true, hlen, if_true]
      exact hfind
    · simp only [onAudioStream, hp, hf, if_true, hlen, if_true]
      exact hmap
    · intro em hm
      simp only [onAudioStream, hp, hf, if_true, hlen, if_true] at hm
      rw [hmap] at hm
      obtain ⟨pid, hpid, rfl⟩ := List.mem_map.mp hm
      have : pid ≠ sid := hne pid hpid
      simp [destIncludes, beq_eq_false_iff_ne, this.symm]

/-- Concrete neighbour within 300 units of pOwner. -/
def pNear : Player :=
  { id := 2, x := JsNum.num 600, y := JsNum.num 500, angle := JsVal.num (JsNum.num 0),
    name := "B", health := 100, audioEnabled := false, lastAudioPacket := 0,
    connectedAt := 0, lastActivity := none, lastShoot := none }

/-- Concrete two-player state for the audio relay scenario. -/
def sAudio : ServerState := { players := [pOwner, pNear], bullets := [], bulletIdCounter := 0 }

/-- Concrete well-formed audio frame. -/
def frame0 : AudioData :=
  { data := JsVal.other true, timestamp := some 0, sampleRate := some 48000 }

/-- C6, witness: the audio relay theorem applied to the concrete two-player
state with the neighbour 100 units away, with all hypotheses discharged by
evaluation. -/
theorem spec_c6_witness :
    findPlayer sAudio.players 1 = some pOwner ∧
    frame0.data.truthy = true ∧
    findPlayer (onAudioStream sAudio 1 (some frame0) 7).1.players 1 =
      some { pOwner with audioEnabled := true, lastAudioPacket := 7 } ∧
    (onAudioStream sAudio 1 (some frame0) 7).2 =
      (getNearbyPlayers
          (updatePlayer sAudio.players 1
            (fun _ => { pOwner with audioEnabled := true, lastAudioPacket := 7 }))
          { pOwner with audioEnabled := true, lastAudioPacket := 7 } 300).map
        (fun pid =>
          { dest := Dest.toOne pid, event := Event.audioStream 1 pOwner.name frame0 }) := by
  have hp : findPlayer sAudio.players 1 = some pOwner := by
    simp [findPlayer, sAudio, List.find?, pOwner]
  have hf : frame0.data.truthy = true := rfl
  have hth := spec_c6_theorem sAudio 1 frame0 7 pOwner hp hf
  have hnonempty : getNearbyPlayers
      (updatePlayer sAudio.players 1
        (fun _ => { pOwner with audioEnabled := true, lastAudioPacket := 7 }))
      { pOwner with audioEnabled := true, lastAudioPacket := 7 } 300 ≠ [] := by
    norm_num [getNearbyPlayers, updatePlayer, sAudio, pOwner, pNear, powDist,
      JsNum.jadd, JsNum.jsub, JsNum.jmul, JsNum.jneg, JsNum.sqrtLe,
      List.filterMap_cons]
  exact ⟨hp, hf, hth.1, hth.2.1 hnonempty⟩

/-- Truncation toward zero: the ToIntegerOrInfinity conversion JavaScript
applies when a number is stored into an Int16Array element. -/
def truncQ (q : ℚ) : Int := if 0 ≤ q then ⌊q⌋ else ⌈q⌉

/-- Int16Array element storage: wrap modulo 2 to the 16 into the signed
range. -/
def toInt16 (n : Int) : Int := (n + 32768) % 65536 - 32768

/-- compressAudio per sample (src/client/audio.js lines 200-207, identical in
src/unnamed/part_003 lines 724-732): the value sample * 32767 is clamped with
Math.max(-32768, Math.min(32767, _)) and then stored into an Int16Array
element, which truncates toward zero and wraps to the signed 16-bit range. -/
def compressSample (s : ℚ) : Int :=
  toInt16 (truncQ (max (-32768) (min 32767 (s * 32767))))

/-- decompressAudio per sample (src/client/audio.js lines 209-217): division
by 32767. -/
def decompressSample (n : Int) : ℚ := (n : ℚ) / 32767

/-- Helper: the Int16Array wrap is the identity on the signed 16-bit range. -/
theorem toInt16_id (n : Int) (h1 : -32768 ≤ n) (h2 : n ≤ 32767) : toInt16 n = n := by
  unfold toInt16
  have h0 : 0 ≤ n + 32768 := by linarith
  have hlt : n + 32768 < 65536 := by linarith
  rw [Int.emod_eq_of_lt h0 hlt]
  ring

/-- C7: the audio codec round trip is within one quantization step: for every
sample in [-1, 1], decompressing its compression lands within 1/32767 of the
original sample; compression is linear scaling by 32767 clamped to
[-32768, 32767] and stored as a signed 16-bit integer, decompression divides
by 32767. -/
theorem spec_c7_theorem (s : ℚ) (hs1 : -1 ≤ s) (hs2 : s ≤ 1) :
    |decompressSample (compressSample s) - s| ≤ 1 / 32767 := by
  have hx1 : -32767 ≤ s * 32767 := by nlinarith
  have hx2 : s * 32767 ≤ 32767 := by nlinarith
  have hmin : min (32767 : ℚ) (s * 32767) = s * 32767 := min_eq_right hx2
  have hmax : max (-32768 : ℚ) (s * 32767) = s * 32767 := max_eq_right (by linarith)
  have hb : -32767 ≤ truncQ (s * 32767) ∧ truncQ (s * 32767) ≤ 32767 ∧
      |((truncQ (s * 32767) : ℚ)) - s * 32767| ≤ 1 := by
    rcases le_or_lt 0 (s * 32767) with h | h
    · have e : truncQ (s * 32767) = ⌊s * 32767⌋ := by simp [truncQ, h]
      rw [e]
      refine ⟨?_, ?_, ?_⟩
      · have h0 : (0 : Int) ≤ ⌊s * 32767⌋ := Int.floor_nonneg.mpr h
        linarith
      · have hle := Int.floor_le_floor hx2
        simpa using hle
      · have hf1 := Int.floor_le (s * 32767)
        have hf2 := Int.sub_one_lt_floor (s * 32767)
        rw [abs_le]
        constructor <;> linarith
    · have e : truncQ (s * 32767) = ⌈s * 32767⌉ := by simp [truncQ, not_le.mpr h]
      rw [e]
      refine ⟨?_, ?_, ?_⟩
      · have hle := Int.ceil_le_ceil hx1
        simpa using hle
      · have h0 : ⌈s * 32767⌉ ≤ (0 : Int) := Int.ceil_le.mpr (by exact_mod_cast h.le)
        linarith
      · have hc1 := Int.le_ceil (s * 32767)
        have hc2 := Int.ceil_lt_add_one (s * 32767)
        rw [abs_le]
        constructor <;> linarith
  have hn : compressSample s = truncQ (s * 32767) := by
    unfold compressSample
    rw [hmin, hmax]
    exact toInt16_id _ (by linarith [hb.1]) hb.2.1
  rw [hn]
  unfold decompressSample
  have heq : (truncQ (s * 32767) : ℚ) / 32767 - s =
      ((truncQ (s * 32767) : ℚ) - s * 32767) / 32767 := by ring
  rw [heq, abs_div]
  rw [show |(32767 : ℚ)| = 32767 by norm_num]
  gcongr
  exact hb.2.2

/-- C7, witness: the round trip theorem applied to the sample 1/3, with the
range hypotheses discharged by evaluation. -/
theorem spec_c7_witness :
    (-1 : ℚ) ≤ 1 / 3 ∧ (1 / 3 : ℚ) ≤ 1 ∧
    |decompressSample (compressSample (1 / 3)) - 1 / 3| ≤ 1 / 32767 :=
  ⟨by norm_num, by norm_num, spec_c7_theorem (1 / 3) (by norm_num) (by norm_num)⟩

/-- Helper: the audio-timeout step preserves the player id. -/
theorem audioSweep_id (now : Int) (p : Player) : (audioSweep now p).id = p.id := by
  unfold audioSweep
  split <;> rfl

/-- Helper: the audio-timeout step preserves lastActivity. -/
theorem audioSweep_lastActivity (now : Int) (p : Player) :
    (audioSweep now p).lastActivity = p.lastActivity := by
  unfold audioSweep
  split <;> rfl

/-- Helper: the audio-timeout step preserves health. -/
theorem audioSweep_health (now : Int) (p : Player) :
    (audioSweep now p).health = p.health := by
  unfold audioSweep
  split <;> rfl

/-- Helper: every emission of the liveness sweep is a playerLeft broadcast
for a player present in the swept list. -/
theorem sweepList_events (now : Int) (ps : List Player) :
    ∀ em ∈ (sweepList now ps).2, ∃ p ∈ ps,
      em = { dest := Dest.all, event := Event.playerLeft p.id } ∧
      activityTimedOut now p.lastActivity = true := by
  induction ps with
  | nil => simp [sweepList]
  | cons p ps ih =>
    intro em hm
    simp only [sweepList] at hm
    by_cases ht : activityTimedOut now (audioSweep now p).lastActivity = true
    · rw [if_pos ht] at hm
      rcases List.mem_cons.mp hm with h | h
      · refine ⟨p, List.mem_cons_self p ps, ?_, ?_⟩
        · rw [h, audioSweep_id]
        · rw [← audioSweep_lastActivity now p]
          exact ht
      · obtain ⟨q, hq, hqe⟩ := ih em h
        exact ⟨q, List.mem_cons_of_mem p hq, hqe⟩
    · rw [if_neg ht] at hm
      obtain ⟨q, hq, hqe⟩ := ih em hm
      exact ⟨q, List.mem_cons_of_mem p hq, hqe⟩

/-- Helper: every player in the swept list comes from a player of the input
list through the audio-timeout step. -/
theorem sweepList_mem (now : Int) (ps : List Player) :
    ∀ q ∈ (sweepList now ps).1, ∃ p ∈ ps, q = audioSweep now p := by
  induction ps with
  | nil => simp [sweepList]
  | cons p ps ih =>
    intro q hq
    simp only [sweepList] at hq
    by_cases ht : activityTimedOut now (audioSweep now p).lastActivity = true
    · rw [if_pos ht] at hq
      obtain ⟨r, hr, hre⟩ := ih q hq
      exact ⟨r, List.mem_cons_of_mem p hr, hre⟩
    · rw [if_neg ht] at hq
      rcases List.mem_cons.mp hq with h | h
      · exact ⟨p, List.mem_cons_self p ps, h⟩
      · obtain ⟨r, hr, hre⟩ := ih q h
        exact ⟨r, List.mem_cons_of_mem p hr, hre⟩

/-- C8, counterexample to the claim as stated: running the disconnect
handler twice for the same identity emits playerLeft twice; the second run
is a no-op on the store but the playerLeft broadcast is unconditional, so
repeated disconnect handling does re-emit playerLeft. -/
theorem spec_c8_counterexample :
    (((onDisconnect sOne 1).2 ++
        (onDisconnect (onDisconnect sOne 1).1 1).2).filter (isLeftFor 1)).length = 2 := by
  norm_num [onDisconnect, sOne, pOwner, isLeftFor]

/-- C8, amended: the first disconnect removes the player from the store and
emits exactly one playerLeft notification for its identity to all other
connections, and a subsequent liveness sweep never re-emits playerLeft for
the removed identity; repeated disconnect handling is a no-op on the store
but re-emits the playerLeft broadcast each time (the emission is
unconditional in the handler). -/
theorem spec_c8_theorem (s : ServerState) (sid : Nat) (now : Int) :
    (∀ p ∈ (onDisconnect s sid).1.players, p.id ≠ sid) ∧
    (onDisconnect s sid).2 =
      [ { dest := Dest.others sid, event := Event.playerLeft sid } ] ∧
    (onDisconnect (onDisconnect s sid).1 sid).1 = (onDisconnect s sid).1 ∧
    (onDisconnect (onDisconnect s sid).1 sid).2 =
      [ { dest := Dest.others sid, event := Event.playerLeft sid } ] ∧
    (∀ em ∈ (livenessSweep (onDisconnect s sid).1 now).2,
      em.event ≠ Event.playerLeft sid) := by
  have hmem : ∀ p ∈ (onDisconnect s sid).1.players, p.id ≠ sid := by
    intro p hp
    have := (List.mem_filter.mp hp).2
    simpa using this
  refine ⟨hmem, rfl, ?_, rfl, ?_⟩
  · have hf : (onDisconnect s sid).1.players.filter (fun p => p.id != sid) =
        (onDisconnect s sid).1.players :=
      List.filter_eq_self.mpr (fun p hp => by simpa using hmem p hp)
    show { (onDisconnect s sid).1 with
           players := (onDisconnect s sid).1.players.filter (fun p => p.id != sid) } =
      (onDisconnect s sid).1
    rw [hf]
  · intro em hm
    obtain ⟨p, hp, hpe, _⟩ := sweepList_events now (onDisconnect s sid).1.players em hm
    rw [hpe]
    intro hcontra
    exact hmem p hp (by simpa using hcontra)

/-- C8, witness: the amended theorem applied to the concrete one-player
state: the first disconnect emits one playerLeft, the second leaves the
state unchanged and a sweep at time 10^9 emits nothing for the identity. -/
theorem spec_c8_witness :
    (onDisconnect sOne 1).2 =
      [ { dest := Dest.others 1, event := Event.playerLeft 1 } ] ∧
    (onDisconnect (onDisconnect sOne 1).1 1).1 = (onDisconnect sOne 1).1 ∧
    (onDisconnect (onDisconnect sOne 1).1 1).2 =
      [ { dest := Dest.others 1, event := Event.playerLeft 1 } ] := by
  have h := spec_c8_theorem sOne 1 1000000000
  exact ⟨h.2.1, h.2.2.1, h.2.2.2.1⟩

/-- Helper: every element of an in-place map update comes from the original
list, either untouched or through the update function applied to an entry
with the matching id. -/
theorem updatePlayer_mem (ps : List Player) (sid : Nat) (f : Player → Player) :
    ∀ q ∈ updatePlayer ps sid f, ∃ p ∈ ps, q = p ∨ (q = f p ∧ p.id = sid) := by
  intro q hq
  obtain ⟨p, hp, he⟩ := List.mem_map.mp hq
  by_cases h : (p.id == sid) = true
  · rw [if_pos h] at he
    exact ⟨p, hp, Or.inr ⟨he.symm, by simpa using h⟩⟩
  · rw [if_neg h] at he
    exact ⟨p, hp, Or.inl he.symm⟩

/-- Helper: every element after a Map.set is the inserted record or one of
the original entries. -/
theorem setPlayer_mem (ps : List Player) (p : Player) :
    ∀ q ∈ setPlayer ps p, q = p ∨ q ∈ ps := by
  intro q hq
  unfold setPlayer at hq
  by_cases h : ps.any (fun r => r.id == p.id) = true
  · rw [if_pos h] at hq
    obtain ⟨r, hr, he⟩ := List.mem_map.mp hq
    by_cases h2 : (r.id == p.id) = true
    · rw [if_pos h2] at he
      exact Or.inl he.symm
    · rw [if_neg h2] at he
      exact Or.inr (he ▸ hr)
  · rw [if_neg h] at hq
    rcases List.mem_append.mp hq with hl | hr
    · exact Or.inr hl
    · exact Or.inl (List.mem_singleton.mp hr)

/-- Helper: every message handler and every tick preserves the health field
of every stored player: a step keeps all healths at 100 when they were 100
before, because no transition ever writes health (the playerDamaged event is
broadcast-only). -/
theorem step_health (s : ServerState) (op : Op)
    (hs : ∀ p ∈ s.players, p.health = 100) :
    ∀ p ∈ (step s op).1.players, p.health = 100 := by
  cases op with
  | connect sid rx ry name now =>
    intro q hq
    simp only [step, onConnect] at hq
    rcases setPlayer_mem s.players (newPlayer sid rx ry name now) q hq with h | h
    · rw [h]
      rfl
    · exact hs q h
  | move sid d now =>
    cases hf : findPlayer s.players sid with
    | none =>
      cases d with
      | none => simpa [step, onPlayerMove, hf] using hs
      | some md => simpa [step, onPlayerMove, hf] using hs
    | some p =>
      cases d with
      | none => simpa [step, onPlayerMove, hf] using hs
      | some md =>
        cases hx : md.x with
        | other t => simpa [step, onPlayerMove, hf, hx] using hs
        | num nx =>
          cases hy : md.y with
          | other t => simpa [step, onPlayerMove, hf, hx, hy] using hs
          | num ny =>
            intro q hq
            simp only [step, onPlayerMove, hf, hx, hy] at hq
            rcases updatePlayer_mem s.players sid _ q hq with ⟨r, hr, h | ⟨h, _⟩⟩
            · exact h ▸ hs r hr
            · rw [h]
              exact hs r hr
  | shoot sid now =>
    cases hf : findPlayer s.players sid with
    | none => simpa [step, onPlayerShoot, hf] using hs
    | some p =>
      cases ha : shootAllowed p.lastShoot now with
      | false => simpa [step, onPlayerShoot, hf, ha] using hs
      | true =>
        intro q hq
        simp only [step, onPlayerShoot, hf, ha, if_true] at hq
        rcases updatePlayer_mem s.players sid _ q hq with ⟨r, hr, h | ⟨h, _⟩⟩
        · exact h ▸ hs r hr
        · rw [h]
          exact hs r hr
  | audioFrame sid frame now =>
    cases hf : findPlayer s.players sid with
    | none =>
      cases frame with
      | none => simpa [step, onAudioStream, hf] using hs
      | some f => simpa [step, onAudioStream, hf] using hs
    | some p =>
      cases frame with
      | none => simpa [step, onAudioStream, hf] using hs
      | some f =>
        cases ht : f.data.truthy with
        | false => simpa [step, onAudioStream, hf, ht] using hs
        | true =>
          intro q hq
          have hpl : (onAudioStream s sid (some f) now).1.players =
              updatePlayer s.players sid
                (fun _ => { p with audioEnabled := true, lastAudioPacket := now }) := by
            simp only [onAudioStream, hf, ht, if_true]
            split <;> rfl
          rw [show (step s (Op.audioFrame sid (some f) now)).1 =
            (onAudioStream s sid (some f) now).1 from rfl, hpl] at hq
          rcases updatePlayer_mem s.players sid _ q hq with ⟨r, hr, h | ⟨h, _⟩⟩
          · exact h ▸ hs r hr
          · rw [h]
            exact hs p (List.mem_of_find?_eq_some hf)
  | audioToggle sid enabled =>
    cases hf : findPlayer s.players sid with
    | none =>
      cases enabled with
      | none => simpa [step, onAudioToggle, hf] using hs
      | some e => simpa [step, onAudioToggle, hf] using hs
    | some p =>
      cases enabled with
      | none => simpa [step, onAudioToggle, hf] using hs
      | some e =>
        intro q hq
        simp only [step, onAudioToggle, hf] at hq
        rcases updatePlayer_mem s.players sid _ q hq with ⟨r, hr, h | ⟨h, _⟩⟩
        · exact h ▸ hs r hr
        · rw [h]
          exact hs r hr
  | disconnect sid =>
    intro q hq
    simp only [step, onDisconnect] at hq
    exact hs q (List.mem_filter.mp hq).1
  | tick lib =>
    intro q hq
    exact hs q hq
  | sweep now =>
    intro q hq
    simp only [step, livenessSweep] at hq
    obtain ⟨r, hr, he⟩ := sweepList_mem now s.players q hq
    rw [he, audioSweep_health]
    exact hs r hr
  | expire bid =>
    intro q hq
    exact hs q hq

/-- Helper: the health invariant holds along every run from a state that
satisfies it. -/
theorem runState_health : ∀ (ops : List Op) (s : ServerState),
    (∀ p ∈ s.players, p.health = 100) →
    ∀ p ∈ (runState s ops).players, p.health = 100 := by
  intro ops
  induction ops with
  | nil =>
    intro s hs
    simpa [runState, runTrace] using hs
  | cons op ops ih =>
    intro s hs
    exact ih (step s op).1 (step_health s op hs)

/-- C9: on every state reachable from the empty initial state by any
sequence of connection messages, disconnects, timer callbacks and ticks,
every stored player's health is exactly 100: health is written only at
creation, no handler or tick ever mutates it, and the playerDamaged
broadcast is emission-only. -/
theorem spec_c9_theorem (ops : List Op) :
    ∀ p ∈ (runState initState ops).players, p.health = 100 :=
  runState_health ops initState (by simp [initState])

/-- C9, witness: after a concrete connect, the created player is stored with
health 100, obtained by applying the reachability theorem to that run. -/
theorem spec_c9_witness :
    newPlayer 1 0 0 "A" 5 ∈ (runState initState [Op.connect 1 0 0 "A" 5]).players ∧
    (newPlayer 1 0 0 "A" 5).health = 100 := by
  have hm : newPlayer 1 0 0 "A" 5 ∈ (runState initState [Op.connect 1 0 0 "A" 5]).players := by
    simp [runState, runTrace, step, onConnect, setPlayer, initState]
  exact ⟨hm, spec_c9_theorem [Op.connect 1 0 0 "A" 5] (newPlayer 1 0 0 "A" 5) hm⟩

/-- Whether a scheduled unit is a playerMove for the given connection that
the handler would accept in the given state: a move message with a truthy
payload whose sender has a live player and whose coordinates both pass the
typeof-number test.  Only such a unit writes lastActivity. -/
def acceptedMoveFor (sid : Nat) (s : ServerState) : Op → Bool
  | Op.move sid2 (some md) _ =>
    sid2 == sid && (findPlayer s.players sid2).isSome && md.x.isNum && md.y.isNum
  | _ => false

/-- Whether a schedule contains no accepted playerMove for the given
connection anywhere along its run. -/
def noAcceptedMoveFor (sid : Nat) : ServerState → List Op → Bool
  | _, [] => true
  | s, op :: ops => !(acceptedMoveFor sid s op) && noAcceptedMoveFor sid (step s op).1 ops

/-- Helper: a step that is not an accepted playerMove for the given
connection leaves the lastActivity of that connection's stored players
absent when it was absent before: connecting, shooting, audio, toggles,
disconnects, ticks, sweeps and timer callbacks never write lastActivity. -/
theorem step_lastActivity (s : ServerState) (op : Op) (sid : Nat)
    (hop : acceptedMoveFor sid s op = false)
    (hs : ∀ p ∈ s.players, p.id = sid → p.lastActivity = none) :
    ∀ p ∈ (step s op).1.players, p.id = sid → p.lastActivity = none := by
  cases op with
  | connect sid2 rx ry name now =>
    intro q hq hid
    simp only [step, onConnect] at hq
    rcases setPlayer_mem s.players (newPlayer sid2 rx ry name now) q hq with h | h
    · rw [h]
      rfl
    · exact hs q h hid
  | move sid2 d now =>
    cases hf : findPlayer s.players sid2 with
    | none =>
      cases d with
      | none => simpa [step, onPlayerMove, hf] using hs
      | some md => simpa [step, onPlayerMove, hf] using hs
    | some p =>
      cases d with
      | none => simpa [step, onPlayerMove, hf] using hs
      | some md =>
        cases hx : md.x with
        | other t => simpa [step, onPlayerMove, hf, hx] using hs
        | num nx =>
          cases hy : md.y with
          | other t => simpa [step, onPlayerMove, hf, hx, hy] using hs
          | num ny =>
            have hne : ¬ sid2 = sid := by
              simp only [acceptedMoveFor, hf, hx, hy] at hop
              simpa [JsVal.isNum] using hop
            intro q hq hid
            simp only [step, onPlayerMove, hf, hx, hy] at hq
            rcases updatePlayer_mem s.players sid2 _ q hq with ⟨r, hr, h | ⟨h, hrid⟩⟩
            · rw [h] at hid
              rw [h]
              exact hs r hr hid
            · rw [h] at hid
              have hid2 : r.id = sid := hid
              exact absurd (hrid.symm.trans hid2) hne
  | shoot sid2 now =>
    cases hf : findPlayer s.players sid2 with
    | none => simpa [step, onPlayerShoot, hf] using hs
    | some p =>
      cases ha : shootAllowed p.lastShoot now with
      | false => simpa [step, onPlayerShoot, hf, ha] using hs
      | true =>
        intro q hq hid
        simp only [step, onPlayerShoot, hf, ha, if_true] at hq
        rcases updatePlayer_mem s.players sid2 _ q hq with ⟨r, hr, h | ⟨h, _⟩⟩
        · rw [h] at hid
          rw [h]
          exact hs r hr hid
        · rw [h] at hid
          rw [h]
          have hid2 : r.id = sid := hid
          exact hs r hr hid2
  | audioFrame sid2 frame now =>
    cases hf : findPlayer s.players sid2 with
    | none =>
      cases frame with
      | none => simpa [step, onAudioStream, hf] using hs
      | some f => simpa [step, onAudioStream, hf] using hs
    | some p =>
      cases frame with
      | none => simpa [step, onAudioStream, hf] using hs
      | some f =>
        cases ht : f.data.truthy with
        | false => simpa [step, onAudioStream, hf, ht] using hs
        | true =>
          intro q hq hid
          have hpl : (onAudioStream s sid2 (some f) now).1.players =
              updatePlayer s.players sid2
                (fun _ => { p with audioEnabled := true, lastAudioPacket := now }) := by
            simp only [onAudioStream, hf, ht, if_true]
            split <;> rfl
          rw [show (step s (Op.audioFrame sid2 (some f) now)).1 =
            (onAudioStream s sid2 (some f) now).1 from rfl, hpl] at hq
          rcases updatePlayer_mem s.players sid2 _ q hq with ⟨r, hr, h | ⟨h, _⟩⟩
          · rw [h] at hid
            rw [h]
            exact hs r hr hid
          · rw [h] at hid
            rw [h]
            have hid2 : p.id = sid := hid
            exact hs p (List.mem_of_find?_eq_some hf) hid2
  | audioToggle sid2 enabled =>
    cases hf : findPlayer s.players sid2 with
    | none =>
      cases enabled with
      | none => simpa [step, onAudioToggle, hf] using hs
      | some e => simpa [step, onAudioToggle, hf] using hs
    | some p =>
      cases enabled with
      | none => simpa [step, onAudioToggle, hf] using hs
      | some e =>
        intro q hq hid
        simp only [step, onAudioToggle, hf] at hq
        rcases updatePlayer_mem s.players sid2 _ q hq with ⟨r, hr, h | ⟨h, _⟩⟩
        · rw [h] at hid
          rw [h]
          exact hs r hr hid
        · rw [h] at hid
          rw [h]
          have hid2 : r.id = sid := hid
          exact hs r hr hid2
  | disconnect sid2 =>
    intro q hq hid
    simp only [step, onDisconnect] at hq
    exact hs q (List.mem_filter.mp hq).1 hid
  | tick lib =>
    intro q hq hid
    exact hs q hq hid
  | sweep now =>
    intro q hq hid
    simp only [step, livenessSweep] at hq
    obtain ⟨r, hr, he⟩ := sweepList_mem now s.players q hq
    subst he
    have hid2 : r.id = sid := by rw [← audioSweep_id now r]; exact hid
    rw [audioSweep_lastActivity]
    exact hs r hr hid2
  | expire bid =>
    intro q hq hid
    exact hs q hq hid

/-- Helper: the lastActivity-absent invariant holds along every run whose
schedule contains no accepted playerMove for the connection. -/
theorem runState_lastActivity (sid : Nat) : ∀ (ops : List Op) (s : ServerState),
    noAcceptedMoveFor sid s ops = true →
    (∀ p ∈ s.players, p.id = sid → p.lastActivity = none) →
    ∀ p ∈ (runState s ops).players, p.id = sid → p.lastActivity = none := by
  intro ops
  induction ops with
  | nil =>
    intro s _ hs
    simpa [runState, runTrace] using hs
  | cons op ops ih =>
    intro s hno hs
    simp only [noAcceptedMoveFor, Bool.and_eq_true, Bool.not_eq_true'] at hno
    exact ih (step s op).1 hno.2 (step_lastActivity s op sid hno.1 hs)

/-- Helper: a player who is not timed out survives the liveness sweep (with
at most its audioEnabled flag flipped). -/
theorem sweepList_keeps (now : Int) (ps : List Player) (p : Player) (hp : p ∈ ps)
    (ht : activityTimedOut now p.lastActivity = false) :
    audioSweep now p ∈ (sweepList now ps).1 := by
  induction ps with
  | nil => cases hp
  | cons q ps ih =>
    simp only [sweepList]
    rcases List.mem_cons.mp hp with rfl | h
    · have hcond : activityTimedOut now (audioSweep now p).lastActivity = false := by
        rw [audioSweep_lastActivity]
        exact ht
      rw [hcond]
      simp
    · by_cases hq : activityTimedOut now (audioSweep now q).lastActivity = true
      · rw [if_pos hq]
        exact ih h
      · rw [if_neg hq]
        exact List.mem_cons_of_mem _ (ih h)

/-- C10: a player whose connection never has an accepted playerMove along a
run from the empty initial state has no lastActivity timestamp (the record
is created without one, and only accepted movement writes it — connecting,
shooting and audio do not); consequently the liveness sweep, at any time,
never evicts that player and never emits playerLeft for that identity. -/
theorem spec_c10_theorem (sid : Nat) (ops : List Op) (now : Int)
    (h : noAcceptedMoveFor sid initState ops = true) :
    (∀ p ∈ (runState initState ops).players, p.id = sid → p.lastActivity = none) ∧
    (∀ em ∈ (livenessSweep (runState initState ops) now).2,
      em.event ≠ Event.playerLeft sid) ∧
    (∀ p ∈ (runState initState ops).players, p.id = sid →
      audioSweep now p ∈ (livenessSweep (runState initState ops) now).1.players) := by
  have hinv := runState_lastActivity sid ops initState h (by simp [initState])
  refine ⟨hinv, ?_, ?_⟩
  · intro em hm
    obtain ⟨p, hp, hpe, hpt⟩ :=
      sweepList_events now (runState initState ops).players em hm
    rw [hpe]
    intro hcontra
    have hid : p.id = sid := by simpa using hcontra
    rw [hinv p hp hid] at hpt
    simp [activityTimedOut] at hpt
  · intro p hp hid
    have hne : activityTimedOut now p.lastActivity = false := by
      rw [hinv p hp hid]
      rfl
    exact sweepList_keeps now (runState initState ops).players p hp hne

/-- Concrete schedule in which connection 1 connects, shoots and streams
audio but never sends a movement message. -/
def c10ops : List Op :=
  [ Op.connect 1 0 0 "A" 5, Op.shoot 1 100, Op.audioFrame 1 (some frame0) 200 ]

/-- C10, witness: along the concrete no-movement schedule the stored player
for connection 1 still has no lastActivity timestamp, via the reachability
theorem with the no-accepted-move hypothesis discharged by evaluation. -/
theorem spec_c10_witness :
    noAcceptedMoveFor 1 initState c10ops = true ∧
    ((runState initState c10ops).players.all
      (fun p => p.id != 1 || p.lastActivity == none)) = true := by
  have h : noAcceptedMoveFor 1 initState c10ops = true := by
    simp [noAcceptedMoveFor, acceptedMoveFor, c10ops]
  refine ⟨h, ?_⟩
  rw [List.all_eq_true]
  intro p hp
  by_cases hid : p.id = 1
  · simp [hid, (spec_c10_theorem 1 c10ops 0 h).1 p hp hid]
  · simp [hid]
